import Mathlib

/-!
Verification of the PyFITS diff engine (`lib/pyfits/diff.py`).

This file gives a shallow embedding of the comparison logic of the diff
module: scalar value comparison (`diff_values`), array divergence location
(`where_not_allclose`), and the `_diff` methods of `ImageDataDiff`,
`RawDataDiff`, `HeaderDiff`, `TableDataDiff`, `HDUDiff` and `FITSDiff`,
together with theorems about the behaviour of these definitions.

Machine floats are modelled as rationals; numpy arrays are modelled as flat
row-major lists of rationals together with a shape and a flag recording
whether the dtype is floating point (or complex).  The parsed object model
(headers as card lists, tables as column lists, HDUs) is the external
boundary of the engine and is modelled from the specification of that
boundary.
-/

set_option maxHeartbeats 1000000

/-- Modelled from the spec: a scalar metadata value as stored on a header
card (the object model supplies Python scalars: floats, ints, strings,
booleans or None).  Floats are modelled as rationals. -/
inductive PyVal where
  | vfloat (q : ℚ)
  | vint (n : ℤ)
  | vstr (s : String)
  | vbool (b : Bool)
  | vnone
  deriving DecidableEq

/-- Modelled from the spec: Python's numeric view of a scalar for `==`
purposes (`bool` is a subtype of `int`, and ints compare equal to floats of
the same value). -/
def PyVal.numVal : PyVal → Option ℚ
  | .vfloat q => some q
  | .vint n => some (n : ℚ)
  | .vbool b => some (if b then 1 else 0)
  | _ => none

/-- Modelled from the spec: Python `==` on the modelled scalar values.  It
is a total function: comparing values of mismatched, non-comparable types
yields `false` and never raises. -/
def pyEq (a b : PyVal) : Bool :=
  match a.numVal, b.numVal with
  | some x, some y => decide (x = y)
  | _, _ =>
    match a, b with
    | .vstr s, .vstr t => decide (s = t)
    | .vnone, .vnone => true
    | _, _ => false

/-- `diff_values` (diff.py 966-976): if both values are floats they differ
iff `not np.allclose(a, b, tolerance, 0.0)`, i.e. iff
`|a - b| > 0 + tolerance * |b|`; otherwise they differ iff `a != b`. -/
def diff_values (a b : PyVal) (tolerance : ℚ) : Bool :=
  match a, b with
  | .vfloat x, .vfloat y => decide (0 + tolerance * |y| < |x - y|)
  | _, _ => !(pyEq a b)

/-- True exactly when both arguments are floats (the first branch of
`diff_values`). -/
def bothFloat : PyVal → PyVal → Bool
  | .vfloat _, .vfloat _ => true
  | _, _ => false

/-- `where_not_allclose` (diff.py 1013-1023) on flat row-major data.  The
indices returned are flat row-major positions, in increasing order exactly
as `np.where` produces them.  When `atol == 0` and `rtol == 0` the faster
exact-inequality comparison is used. -/
def where_not_allclose (a b : List ℚ) (rtol atol : ℚ) : List Nat :=
  if atol = 0 ∧ rtol = 0 then
    (List.range a.length).filter (fun i => decide (a.getD i 0 ≠ b.getD i 0))
  else
    (List.range a.length).filter
      (fun i => decide (atol + rtol * |b.getD i 0| < |a.getD i 0 - b.getD i 0|))

/-- Modelled from the spec: an N-dimensional numpy array as the object
model hands it to the engine.  `data` lists the elements in row-major
order; `isFloat` records whether the dtype is floating point or complex. -/
structure NDArr where
  shape : List Nat
  isFloat : Bool
  data : List ℚ
  deriving DecidableEq

/-- Convert a flat row-major position into the multi-dimensional index
tuple that `np.where`/`izip` would produce for the given shape. -/
def unravel : List Nat → Nat → List Nat
  | [], _ => []
  | _ :: ds, i => (i / ds.prod) :: unravel ds (i % ds.prod)

/-- The diff attributes of an `ImageDataDiff` (diff.py 615-701). -/
structure ImageDataDiffResult where
  diff_dimensions : Option (List Nat × List Nat)
  diff_pixels : List (List Nat × (ℚ × ℚ))
  diff_total : Nat
  diff_ratio : ℚ
  deriving DecidableEq

/-- `ImageDataDiff._diff` (diff.py 668-701): on a shape mismatch record the
two shapes and stop; otherwise force the tolerance to zero when neither
dtype is floating point/complex, locate the differing positions, record
their exact count and ratio, and materialize at most `numdiffs` (all of
them when `numdiffs` is negative) index/value pairs. -/
def imageDataDiff (a b : NDArr) (numdiffs : Int) (tolerance : ℚ) :
    ImageDataDiffResult :=
  if a.shape ≠ b.shape then
    { diff_dimensions := some (a.shape, b.shape), diff_pixels := [],
      diff_total := 0, diff_ratio := 0 }
  else
    let tol := if !a.isFloat && !b.isFloat then 0 else tolerance
    let diffs := where_not_allclose a.data b.data tol 0
    let total := diffs.length
    if total = 0 then
      { diff_dimensions := none, diff_pixels := [], diff_total := 0,
        diff_ratio := 0 }
    else
      let nd := if numdiffs < 0 then total else numdiffs.toNat
      { diff_dimensions := none,
        diff_pixels := (diffs.take nd).map (fun i =>
          (unravel a.shape i, (a.data.getD i 0, b.data.getD i 0))),
        diff_total := total,
        diff_ratio := (total : ℚ) / (a.data.length : ℚ) }

/-- The diff attributes of a `RawDataDiff` (diff.py 729-748); note that
`_diff` deletes `diff_pixels` after converting it to `diff_bytes`. -/
structure RawDataDiffResult where
  diff_dimensions : Option (Nat × Nat)
  diff_bytes : List (Nat × (ℚ × ℚ))
  diff_total : Nat
  diff_ratio : ℚ
  deriving DecidableEq

/-- `RawDataDiff._diff` (diff.py 741-748): run the image diff (the
constructor passes only `numdiffs` on, so the tolerance is the default 0),
then reduce the recorded shapes and indices to their first (only)
dimension. -/
def rawDataDiff (a b : NDArr) (numdiffs : Int) : RawDataDiffResult :=
  let base := imageDataDiff a b numdiffs 0
  { diff_dimensions := base.diff_dimensions.map
      (fun p => (p.1.getD 0 0, p.2.getD 0 0)),
    diff_bytes := base.diff_pixels.map (fun p => (p.1.getD 0 0, p.2)),
    diff_total := base.diff_total,
    diff_ratio := base.diff_ratio }

/-- Shell-style glob matching (`fnmatch.fnmatch` as used by the keyword
ignore patterns): `*` matches any run of characters, `?` any single
character, other characters match themselves. -/
def globMatch : List Char → List Char → Bool
  | [], [] => true
  | [], _ :: _ => false
  | '*' :: ps, [] => globMatch ps []
  | '*' :: ps, c :: cs => globMatch ps (c :: cs) || globMatch ('*' :: ps) cs
  | _ :: _, [] => false
  | p :: ps, c :: cs => (p == '?' || p == c) && globMatch ps cs
termination_by p s => (p.length, s.length)

/-- `fnmatch.fnmatch` on strings (POSIX `normcase` is the identity). -/
def fnmatchB (pat s : String) : Bool := globMatch pat.toList s.toList

/-- `glob.has_magic`: the string contains a glob metacharacter. -/
def hasMagic (s : String) : Bool :=
  s.toList.any (fun c => c == '*' || c == '?' || c == '[')

/-- Modelled from the spec: one header card of the parsed object model, a
(keyword, value, comment) triple (pyfits `Card`; keywords may repeat). -/
structure Card where
  keyword : String
  value : PyVal
  comment : String
  deriving DecidableEq

/-- Modelled from the spec: a header is an ordered sequence of cards. -/
abbrev Header := List Card

/-- Python `str.rstrip()`: drop trailing whitespace. -/
def rstripStr (s : String) : String :=
  ((s.toList.reverse.dropWhile Char.isWhitespace).reverse).asString

/-- `if self.ignore_blanks and isinstance(value, basestring):
value = value.rstrip()` (diff.py 498-499). -/
def stripVal (ignore_blanks : Bool) : PyVal → PyVal
  | .vstr s => if ignore_blanks then .vstr (rstripStr s) else .vstr s
  | v => v

/-- The ordered list of (possibly rstripped) values of a keyword in a
header (`get_header_values_comments`, diff.py 493-502). -/
def headerValues (ignore_blanks : Bool) (h : Header) (k : String) :
    List PyVal :=
  (h.filter (fun c => c.keyword == k)).map (fun c => stripVal ignore_blanks c.value)

/-- The ordered list of comments of a keyword in a header. -/
def headerComments (h : Header) (k : String) : List String :=
  (h.filter (fun c => c.keyword == k)).map Card.comment

/-- Insert into a sorted list (auxiliary for modelling Python `sorted`). -/
def insertSorted {α : Type} (le : α → α → Bool) (x : α) : List α → List α
  | [] => [x]
  | y :: ys => if le x y then x :: y :: ys else y :: insertSorted le x ys

/-- Stable insertion sort, modelling Python `sorted`. -/
def insertionSort {α : Type} (le : α → α → Bool) : List α → List α
  | [] => []
  | x :: xs => insertSorted le x (insertionSort le xs)

/-- Sort a list of strings (Python `sorted`). -/
def sortStrings (l : List String) : List String :=
  insertionSort (fun x y => decide (x ≤ y)) l

/-- Lower-case a string (Python `str.lower()`). -/
def strLower (s : String) : String :=
  (s.toList.map Char.toLower).asString

/-- The diff attributes of a `HeaderDiff` (diff.py 383-584).  The
per-keyword maps are modelled as association lists.  `diff_keyword_positions`
is always the empty tuple in the source (an unimplemented TODO) and is
therefore not carried. -/
structure HeaderDiffResult where
  common_keywords : List String
  diff_keyword_count : Option (Nat × Nat)
  diff_keywords : Option (List String × List String)
  diff_duplicate_keywords : List (String × (Nat × Nat))
  diff_keyword_values : List (String × List (Option (PyVal × PyVal)))
  diff_keyword_comments : List (String × List (Option (String × String)))
  deriving DecidableEq

/-- `HeaderDiff._diff` (diff.py 491-584), with the `__init__` splitting of
the ignore sets into exact matches and glob patterns (diff.py 439-448: a
pattern containing a metacharacter other than the lone string `*` is moved
to the pattern set).  Keyword sets are intersected/differenced as in the
source; `common_keywords` and `diff_keyword_count` are computed before any
ignore filtering; a `*` in the exact ignore set short-circuits all further
keyword, value and comment differences. -/
def headerDiff (a b : Header) (ignore_keywords ignore_comments : List String)
    (tolerance : ℚ) (ignore_blanks : Bool) : HeaderDiffResult :=
  let ikw := ignore_keywords.filter (fun k => k == "*" || !hasMagic k)
  let ikwPats := ignore_keywords.filter (fun k => k != "*" && hasMagic k)
  let icm := ignore_comments.filter (fun k => k == "*" || !hasMagic k)
  let icmPats := ignore_comments.filter (fun k => k != "*" && hasMagic k)
  let valuesa := headerValues ignore_blanks a
  let valuesb := headerValues ignore_blanks b
  let keywordsa0 := (a.map Card.keyword).dedup
  let keywordsb0 := (b.map Card.keyword).dedup
  let common := sortStrings (keywordsa0.filter (fun k => keywordsb0.contains k))
  let kcount := if a.length ≠ b.length then some (a.length, b.length) else none
  if ikw.contains "*" then
    { common_keywords := common, diff_keyword_count := kcount,
      diff_keywords := none, diff_duplicate_keywords := [],
      diff_keyword_values := [], diff_keyword_comments := [] }
  else
    let keep := fun (l : List String) =>
      (l.filter (fun k => !ikw.contains k)).filter
        (fun k => !ikwPats.any (fun p => fnmatchB p k))
    let ka := keep keywordsa0
    let kb := keep keywordsb0
    let leftOnly := sortStrings (ka.filter (fun k => !kb.contains k))
    let rightOnly := sortStrings (kb.filter (fun k => !ka.contains k))
    let dkw := if leftOnly ≠ [] ∨ rightOnly ≠ [] then
        some (leftOnly, rightOnly) else none
    let entries := common.filter (fun k =>
      !ikw.contains k && !ikwPats.any (fun p => fnmatchB p k))
    let dups := entries.filterMap (fun k =>
      let ca := (valuesa k).length
      let cb := (valuesb k).length
      if ca ≠ cb then some (k, (ca, cb)) else none)
    let vals := entries.filterMap (fun k =>
      let ds := (List.zip (valuesa k) (valuesb k)).map (fun p =>
        if diff_values p.1 p.2 tolerance then some (p.1, p.2) else none)
      if ds.any Option.isSome then some (k, ds) else none)
    let comms := entries.filterMap (fun k =>
      if icm.contains "*" || icm.contains k then none
      else if icmPats.any (fun p => fnmatchB p k) then none
      else
        let ds := (List.zip (headerComments a k) (headerComments b k)).map
          (fun p => if p.1 ≠ p.2 then some p else none)
        if ds.any Option.isSome then some (k, ds) else none)
    { common_keywords := common, diff_keyword_count := kcount,
      diff_keywords := dkw, diff_duplicate_keywords := dups,
      diff_keyword_values := vals, diff_keyword_comments := comms }

/-- Modelled from the spec: a table column of the parsed object model
(pyfits `Column`; `pyfits/column.py` is not part of the sources given).
`cells` holds the column's data, one list of numeric values per row
(a singleton list for scalar columns, several values for multi-dimensional
or variable-length cells); `isFloat` records a floating-point dtype. -/
structure TCol where
  name : String
  format : String
  isFloat : Bool
  cells : List (List ℚ)
  deriving DecidableEq

/-- Modelled from the spec: a record table; `nrows` is `len(table)`. -/
structure Table where
  cols : List TCol
  nrows : Nat
  deriving DecidableEq

/-- Column access by name (diff.py 854-869 comment): a case-sensitive match
is tried first, then a case-insensitive one. -/
def Table.colByName (t : Table) (nm : String) : TCol :=
  match t.cols.find? (fun c => c.name == nm) with
  | some c => c
  | none =>
      (t.cols.find? (fun c => strLower c.name == strLower nm)).getD
        ⟨"", "", false, []⟩

/-- Modelled from the spec: two columns from different tables are the same
column iff their names match case-insensitively (spec section 3; the
equality/ordering of pyfits `Column` objects lives in the absent
`pyfits/column.py`).  `sorted` over the common columns is modelled as
sorting by lower-cased name. -/
def sortCols (l : List TCol) : List TCol :=
  insertionSort (fun c d => decide (strLower c.name ≤ strLower d.name)) l

/-- The row indices that `np.where`-style comparison of two column data
arrays produces: for each row, the row index repeated once per
within-cell position where `p` holds (row-major order, so the repetitions
of one row index are consecutive and indices are non-decreasing). -/
def rowRepeatIdxs (p : ℚ → ℚ → Bool) (ca cb : List (List ℚ)) : List Nat :=
  ((List.zip ca cb).enum).flatMap (fun x =>
    List.replicate (((List.zip x.2.1 x.2.2).filter
      (fun q => p q.1 q.2)).length) x.1)

/-- `np.allclose(x, y, atol=0.0, rtol=tol)` on one (variable-length) cell:
every element satisfies `|x - y| <= 0 + tol * |y|`. -/
def allcloseCells (tol : ℚ) (xa xb : List ℚ) : Bool :=
  (List.zip xa xb).all (fun q => decide (|q.1 - q.2| ≤ 0 + tol * |q.2|))

/-- The per-column difference index list `diffs[0]` of
`TableDataDiff._diff` (diff.py 870-879): float columns go through
`where_not_allclose(cola, colb, atol=0.0, rtol=tolerance)` (whose `rtol = 0`
branch is exact inequality), variable-length (`P` format) columns compare
row by row with `np.allclose`, and all other columns use `np.where(cola !=
colb)`. -/
def colDiffIdxs (tolerance : ℚ) (col ca cb : TCol) : List Nat :=
  if ca.isFloat && cb.isFloat then
    if tolerance = 0 then
      rowRepeatIdxs (fun x y => decide (x ≠ y)) ca.cells cb.cells
    else
      rowRepeatIdxs (fun x y => decide (0 + tolerance * |y| < |x - y|))
        ca.cells cb.cells
  else if col.format.toList.contains 'P' then
    ((List.zip ca.cells cb.cells).enum).filterMap (fun x =>
      if allcloseCells tolerance x.2.1 x.2.2 then none else some x.1)
  else
    rowRepeatIdxs (fun x y => decide (x ≠ y)) ca.cells cb.cells

/-- Skip indices equal to the last seen one (`last_seen_idx`, diff.py
893-900; the loop starts with `last_seen_idx = None`). -/
def skipConsec : Option Nat → List Nat → List Nat
  | _, [] => []
  | last, i :: is =>
      if last == some i then skipConsec last is
      else i :: skipConsec (some i) is

/-- The running state of the column loop of `TableDataDiff._diff`:
collected sample values and the running difference total. -/
structure TAcc where
  vals : List ((String × Nat) × (List ℚ × List ℚ))
  total : Nat
  deriving DecidableEq

/-- One iteration of the column loop of `TableDataDiff._diff` (diff.py
865-902) for a prepared work item `(col, cola, colb, diffs)`: the total
grows by the number of distinct differing row indices; sample collection
stops once `numdiffs` samples are held (for non-negative `numdiffs`),
otherwise up to `max_diffs` entries of `diffs` are consumed, skipping
consecutive repeats of a row index. -/
def tableColStep (numdiffs : Int) (acc : TAcc)
    (w : TCol × TCol × TCol × List Nat) : TAcc :=
  let diffs := w.2.2.2
  let total := acc.total + diffs.dedup.length
  if 0 ≤ numdiffs ∧ numdiffs.toNat ≤ acc.vals.length then
    { vals := acc.vals, total := total }
  else
    let max_diffs : Nat :=
      if numdiffs < 0 then diffs.length else numdiffs.toNat - acc.vals.length
    let picked := skipConsec none (diffs.take max_diffs)
    { vals := acc.vals ++ picked.map (fun i =>
        ((w.1.name, i), ((w.2.1.cells.getD i []), (w.2.2.1.cells.getD i [])))),
      total := total }

/-- The diff attributes of a `TableDataDiff` (diff.py 772-905).
`diff_columns` is modelled as the two lists of columns unique to each side
(the source keys them by lower-cased name). -/
structure TableDataDiffResult where
  common_columns : List TCol
  diff_column_count : Option (Nat × Nat)
  diff_columns : Option (List TCol × List TCol)
  diff_column_names : Option (List String × List String)
  diff_values : List ((String × Nat) × (List ℚ × List ℚ))
  diff_total : Nat
  diff_ratio : ℚ
  deriving DecidableEq

/-- `TableDataDiff._diff` (diff.py 797-905).  A `*` in the ignore-field set
returns before any column comparison; otherwise ignored columns are removed
from both sides, common/unique columns are computed by case-insensitive
name, each remaining common column is compared, and finally `diff_ratio =
float(diff_total) / float(len(a) * len(a.dtype.fields))` — which raises
`ZeroDivisionError` when the denominator is zero. -/
def tableDataDiff (a b : Table) (ignore_fields0 : List String)
    (numdiffs : Int) (tolerance : ℚ) : Except String TableDataDiffResult :=
  let dcc := if a.cols.length ≠ b.cols.length then
      some (a.cols.length, b.cols.length) else none
  if ignore_fields0.contains "*" then
    .ok { common_columns := [], diff_column_count := dcc,
          diff_columns := none, diff_column_names := none,
          diff_values := [], diff_total := 0, diff_ratio := 0 }
  else
    let ignore_fields := ignore_fields0.map strLower
    let colsa := a.cols.filter (fun c => !ignore_fields.contains (strLower c.name))
    let colsb := b.cols.filter (fun c => !ignore_fields.contains (strLower c.name))
    let common := sortCols (colsa.filter (fun c =>
      colsb.any (fun d => strLower d.name == strLower c.name)))
    let leftOnly := colsa.filter (fun c =>
      !colsb.any (fun d => strLower d.name == strLower c.name))
    let rightOnly := colsb.filter (fun c =>
      !colsa.any (fun d => strLower d.name == strLower c.name))
    let dcols := if leftOnly ≠ [] ∨ rightOnly ≠ [] then
        some (leftOnly, rightOnly) else none
    let dnames := if leftOnly ≠ [] ∨ rightOnly ≠ [] then
        some ((a.cols.filter (fun c => leftOnly.any
                (fun d => strLower d.name == strLower c.name))).map TCol.name,
              (b.cols.filter (fun c => rightOnly.any
                (fun d => strLower d.name == strLower c.name))).map TCol.name)
      else none
    let work := common.filterMap (fun col =>
      if ignore_fields.contains (strLower col.name) then none
      else
        let ca := a.colByName col.name
        let cb := b.colByName col.name
        some (col, ca, cb, colDiffIdxs tolerance col ca cb))
    let acc := work.foldl (tableColStep numdiffs) ⟨[], 0⟩
    let total_values := a.nrows * a.cols.length
    if total_values = 0 then .error "ZeroDivisionError"
    else .ok { common_columns := common, diff_column_count := dcc,
               diff_columns := dcols, diff_column_names := dnames,
               diff_values := acc.vals, diff_total := acc.total,
               diff_ratio := (acc.total : ℚ) / (total_values : ℚ) }

/-- Modelled from the spec: the optional data block of one unit — an image
array, a record table, or raw/unrecognized bytes. -/
inductive HDUData where
  | img (a : NDArr)
  | tbl (t : Table)
  | raw (a : NDArr)
  deriving DecidableEq

/-- Modelled from the spec: one HDU of the parsed object model — a name,
a header, and optional data. -/
structure HDU where
  name : String
  header : Header
  data : Option HDUData
  deriving DecidableEq

/-- `Header.get(keyword)`: the value of the first card with the given
keyword, or `None` (here `none`). -/
def headerGet (h : Header) (k : String) : Option PyVal :=
  (h.find? (fun c => c.keyword == k)).map Card.value

/-- The data diff variant carried by `HDUDiff.diff_data`. -/
inductive DataDiffResult where
  | img (r : ImageDataDiffResult)
  | tbl (r : TableDataDiffResult)
  | raw (r : RawDataDiffResult)
  deriving DecidableEq

/-- The diff attributes of an `HDUDiff` (diff.py 274-359).  `diff_headers`
always holds the `HeaderDiff` of the two headers; `diff_data` is `none`
when no data comparison was performed. -/
structure HDUDiffResult where
  diff_extnames : Option (String × String)
  diff_extvers : Option (Option PyVal × Option PyVal)
  diff_extension_types : Option (Option PyVal × Option PyVal)
  diff_headers : HeaderDiffResult
  diff_data : Option DataDiffResult
  deriving DecidableEq

/-- The comparison configuration owned by `FITSDiff` (diff.py 125-186). -/
structure DiffConfig where
  ignore_keywords : List String
  ignore_comments : List String
  ignore_fields : List String
  numdiffs : Int
  tolerance : ℚ
  ignore_blanks : Bool
  deriving DecidableEq

/-- `HDUDiff._diff` (diff.py 324-359).  The header diff receives the
configured ignore sets, tolerance and blank handling.  Data is not compared
when either side's data is `None`.  Both-image data goes to
`ImageDataDiff(numdiffs=self.numdiffs, tolerance=self.tolerance)`; note
that line 355 constructs `TableDataDiff(self.a.data, self.b.data)` and line
359 `RawDataDiff(self.a.data, self.b.data)` with the DEFAULT options
(`ignore_fields=[]`, `numdiffs=10`, `tolerance=0.0`) — the stored
configuration is not forwarded there.  The final raw branch fires when the
XTENSION values match; for parsed HDUs matching XTENSION values imply
matching data kinds, so it is reached with both sides raw; remaining mixed
kind combinations are modelled as not compared. -/
def hduDiff (a b : HDU) (cfg : DiffConfig) : Except String HDUDiffResult :=
  let den := if a.name ≠ b.name then some (a.name, b.name) else none
  let dev := if headerGet a.header "EXTVER" ≠ headerGet b.header "EXTVER" then
      some (headerGet a.header "EXTVER", headerGet b.header "EXTVER")
    else none
  let det := if headerGet a.header "XTENSION" ≠ headerGet b.header "XTENSION"
    then some (headerGet a.header "XTENSION", headerGet b.header "XTENSION")
    else none
  let dh := headerDiff a.header b.header cfg.ignore_keywords
    cfg.ignore_comments cfg.tolerance cfg.ignore_blanks
  let mk : Option DataDiffResult → HDUDiffResult :=
    fun dd => ⟨den, dev, det, dh, dd⟩
  match a.data, b.data with
  | none, _ => .ok (mk none)
  | _, none => .ok (mk none)
  | some (.img x), some (.img y) =>
      .ok (mk (some (.img (imageDataDiff x y cfg.numdiffs cfg.tolerance))))
  | some (.tbl x), some (.tbl y) =>
      (tableDataDiff x y [] 10 0).map (fun t => mk (some (.tbl t)))
  | some (.raw x), some (.raw y) =>
      if det = none then .ok (mk (some (.raw (rawDataDiff x y 10))))
      else .ok (mk none)
  | some _, some _ => .ok (mk none)

/-- The diff attributes of a `FITSDiff` (diff.py 112-217). -/
structure FITSDiffResult where
  diff_hdu_count : Option (Nat × Nat)
  diff_hdus : List (Nat × HDUDiffResult)
  deriving DecidableEq

/-! ### `identical` (diff.py 63-75)

`_BaseDiff.identical` is `not any(getattr(self, attr) for attr in
self.__dict__ if attr.startswith('diff_'))`: reflection over the instance's
`diff_*` attributes, testing Python truthiness of each.  For every diff
result type we list the truthiness of each `diff_*` attribute (in the order
they are assigned) and define `identical` as the source does.  An empty
tuple/list/dict and the number 0 are falsy; `None` is falsy; a nested
`_BaseDiff` object is truthy iff it is not itself identical (its
`__nonzero__`, diff.py 55-61). -/

/-- Truthiness of each `diff_*` attribute of an `ImageDataDiff`:
`diff_dimensions`, `diff_pixels`, `diff_ratio`, `diff_total`. -/
def imageDiffAttrs (r : ImageDataDiffResult) : List Bool :=
  [r.diff_dimensions.isSome, !r.diff_pixels.isEmpty,
   decide (r.diff_ratio ≠ 0), decide (r.diff_total ≠ 0)]

/-- `ImageDataDiff.identical`. -/
def imageIdentical (r : ImageDataDiffResult) : Bool :=
  !(imageDiffAttrs r).any id

/-- Truthiness of each `diff_*` attribute of a `RawDataDiff`
(`diff_pixels` has been deleted by `_diff`): `diff_dimensions`,
`diff_bytes`, `diff_ratio`, `diff_total`. -/
def rawDiffAttrs (r : RawDataDiffResult) : List Bool :=
  [r.diff_dimensions.isSome, !r.diff_bytes.isEmpty,
   decide (r.diff_ratio ≠ 0), decide (r.diff_total ≠ 0)]

/-- `RawDataDiff.identical`. -/
def rawIdentical (r : RawDataDiffResult) : Bool :=
  !(rawDiffAttrs r).any id

/-- Truthiness of each `diff_*` attribute of a `HeaderDiff`:
`diff_keyword_count`, `diff_keyword_positions` (always the empty tuple, an
unimplemented TODO, hence the literal `false`), `diff_keywords`,
`diff_duplicate_keywords`, `diff_keyword_values`, `diff_keyword_comments`. -/
def headerDiffAttrs (r : HeaderDiffResult) : List Bool :=
  [r.diff_keyword_count.isSome, false, r.diff_keywords.isSome,
   !r.diff_duplicate_keywords.isEmpty, !r.diff_keyword_values.isEmpty,
   !r.diff_keyword_comments.isEmpty]

/-- `HeaderDiff.identical`. -/
def headerIdentical (r : HeaderDiffResult) : Bool :=
  !(headerDiffAttrs r).any id

/-- Truthiness of each `diff_*` attribute of a `TableDataDiff`:
`diff_column_count`, `diff_columns`, `diff_column_names`, `diff_values`,
`diff_ratio`, `diff_total`. -/
def tableDiffAttrs (r : TableDataDiffResult) : List Bool :=
  [r.diff_column_count.isSome, r.diff_columns.isSome,
   r.diff_column_names.isSome, !r.diff_values.isEmpty,
   decide (r.diff_ratio ≠ 0), decide (r.diff_total ≠ 0)]

/-- `TableDataDiff.identical`. -/
def tableIdentical (r : TableDataDiffResult) : Bool :=
  !(tableDiffAttrs r).any id

/-- Python truthiness of `HDUDiff.diff_data`: `None` is falsy, a nested
diff object is truthy iff not identical. -/
def dataDiffTruthy : Option DataDiffResult → Bool
  | none => false
  | some (.img r) => !imageIdentical r
  | some (.tbl r) => !tableIdentical r
  | some (.raw r) => !rawIdentical r

/-- Truthiness of each `diff_*` attribute of an `HDUDiff`:
`diff_extnames`, `diff_extvers`, `diff_extension_types`, `diff_headers`
(a `HeaderDiff` object, truthy iff not identical), `diff_data`. -/
def hduDiffAttrs (r : HDUDiffResult) : List Bool :=
  [r.diff_extnames.isSome, r.diff_extvers.isSome,
   r.diff_extension_types.isSome, !headerIdentical r.diff_headers,
   dataDiffTruthy r.diff_data]

/-- `HDUDiff.identical`. -/
def hduIdentical (r : HDUDiffResult) : Bool :=
  !(hduDiffAttrs r).any id

/-- Truthiness of each `diff_*` attribute of a `FITSDiff`:
`diff_hdu_count`, `diff_hdus`. -/
def fitsDiffAttrs (r : FITSDiffResult) : List Bool :=
  [r.diff_hdu_count.isSome, !r.diff_hdus.isEmpty]

/-- `FITSDiff.identical`. -/
def fitsIdentical (r : FITSDiffResult) : Bool :=
  !(fitsDiffAttrs r).any id

/-- `FITSDiff._diff` (diff.py 199-217): record the two HDU counts if they
differ, then diff the HDUs pairwise by position up to the shorter length,
passing the full configuration to every `HDUDiff`, and collect the
non-identical pairs with their index. -/
def fitsDiff (a b : List HDU) (cfg : DiffConfig) :
    Except String FITSDiffResult :=
  let dc := if a.length ≠ b.length then some (a.length, b.length) else none
  (((List.zip a b).enum).foldl (fun acc (x : Nat × (HDU × HDU)) => do
      let hs ← acc
      let d ← hduDiff x.2.1 x.2.2 cfg
      if hduIdentical d then pure hs else pure (hs ++ [(x.1, d)]))
    (.ok []))
    |>.map (fun hdus => { diff_hdu_count := dc, diff_hdus := hdus })

/-- Every cell of every column of the table holds at most one value
(i.e. no multi-dimensional or variable-length cells). -/
def scalarCells (t : Table) : Bool :=
  t.cols.all (fun c => c.cells.all (fun x => decide (x.length ≤ 1)))

/-! ### Theorems -/

-- `not any` over a list of booleans means every entry is false.
theorem not_any_id_iff (l : List Bool) :
    (!l.any id) = true ↔ ∀ x ∈ l, x = false := by
  simp [List.any_eq_true]

/-- C1: for every diff object type (`FITSDiff`, `HDUDiff`, `HeaderDiff`,
`ImageDataDiff`, `RawDataDiff`, `TableDataDiff`), `identical` is true iff
every `diff_*` attribute of the object is empty/falsy, and every such
comparator exposes at least one `diff_*` attribute. -/
theorem c1_identical_iff_all_diff_attrs_falsy :
    (∀ r : FITSDiffResult,
      (fitsIdentical r = true ↔ ∀ x ∈ fitsDiffAttrs r, x = false)
      ∧ fitsDiffAttrs r ≠ [])
    ∧ (∀ r : HDUDiffResult,
      (hduIdentical r = true ↔ ∀ x ∈ hduDiffAttrs r, x = false)
      ∧ hduDiffAttrs r ≠ [])
    ∧ (∀ r : HeaderDiffResult,
      (headerIdentical r = true ↔ ∀ x ∈ headerDiffAttrs r, x = false)
      ∧ headerDiffAttrs r ≠ [])
    ∧ (∀ r : ImageDataDiffResult,
      (imageIdentical r = true ↔ ∀ x ∈ imageDiffAttrs r, x = false)
      ∧ imageDiffAttrs r ≠ [])
    ∧ (∀ r : RawDataDiffResult,
      (rawIdentical r = true ↔ ∀ x ∈ rawDiffAttrs r, x = false)
      ∧ rawDiffAttrs r ≠ [])
    ∧ (∀ r : TableDataDiffResult,
      (tableIdentical r = true ↔ ∀ x ∈ tableDiffAttrs r, x = false)
      ∧ tableDiffAttrs r ≠ []) :=
  ⟨fun r => ⟨not_any_id_iff _, by simp [fitsDiffAttrs]⟩,
   fun r => ⟨not_any_id_iff _, by simp [hduDiffAttrs]⟩,
   fun r => ⟨not_any_id_iff _, by simp [headerDiffAttrs]⟩,
   fun r => ⟨not_any_id_iff _, by simp [imageDiffAttrs]⟩,
   fun r => ⟨not_any_id_iff _, by simp [rawDiffAttrs]⟩,
   fun r => ⟨not_any_id_iff _, by simp [tableDiffAttrs]⟩⟩

/-- C4: `diff_values` on two floats is true iff `|a - b|` exceeds
`tolerance * |b|` (pure relative comparison, zero absolute tolerance);
on any other combination it is true iff the two values are not equal under
Python equality — a total function, so no exception can be raised for
mismatched non-comparable types. -/
theorem c4_diff_values_semantics :
    (∀ (x y t : ℚ),
      diff_values (.vfloat x) (.vfloat y) t = true ↔ t * |y| < |x - y|)
    ∧ (∀ (a b : PyVal) (t : ℚ), bothFloat a b = false →
      (diff_values a b t = true ↔ pyEq a b = false)) := by
  constructor
  · intro x y t
    simp [diff_values]
  · intro a b t h
    cases a <;> cases b <;>
      simp_all [diff_values, bothFloat]

/-- Witness for C4 at a mismatched-type input. -/
theorem c4_witness :
    bothFloat (.vint 1) (.vstr "x") = false
    ∧ (diff_values (.vint 1) (.vstr "x") 0 = true ↔
        pyEq (.vint 1) (.vstr "x") = false) :=
  ⟨by rfl, c4_diff_values_semantics.2 (.vint 1) (.vstr "x") 0 (by rfl)⟩

/-- C5: with zero absolute tolerance, `where_not_allclose` returns exactly
the positions where the arrays are unequal when `rtol = 0`, exactly the
positions where `|a[i] - b[i]| > rtol * |b[i]|` when `rtol > 0`, and in
both cases the (row-major flat) indices come in increasing order. -/
theorem c5_where_not_allclose_spec :
    ∀ (a b : List ℚ) (rtol : ℚ), a.length = b.length →
    ((rtol = 0 → ∀ i, (i ∈ where_not_allclose a b rtol 0 ↔
        i < a.length ∧ a.getD i 0 ≠ b.getD i 0))
    ∧ (0 < rtol → ∀ i, (i ∈ where_not_allclose a b rtol 0 ↔
        i < a.length ∧ rtol * |b.getD i 0| < |a.getD i 0 - b.getD i 0|))
    ∧ (where_not_allclose a b rtol 0).Pairwise (· < ·)) := by
  intro a b rtol _
  refine ⟨?_, ?_, ?_⟩
  · intro h0 i
    subst h0
    simp [where_not_allclose, List.mem_filter, List.mem_range, and_comm]
  · intro hpos i
    rw [where_not_allclose, if_neg (fun h => hpos.ne' h.2)]
    simp [List.mem_filter, List.mem_range, and_comm]
  · rw [where_not_allclose]
    split <;>
      exact List.Pairwise.sublist (List.filter_sublist _)
        (List.pairwise_lt_range _)

/-- Witness for C5 on a concrete pair of equal-length arrays. -/
theorem c5_witness :
    ([(1:ℚ), 2].length = [(1:ℚ), 3].length)
    ∧ ∀ i, (i ∈ where_not_allclose [1, 2] [1, 3] 0 0 ↔
        i < [(1:ℚ), 2].length ∧ [(1:ℚ), 2].getD i 0 ≠ [(1:ℚ), 3].getD i 0) :=
  ⟨rfl, (c5_where_not_allclose_spec [1, 2] [1, 3] 0 rfl).1 rfl⟩

/-- C7: on a shape mismatch, `ImageDataDiff` records the two shapes in
`diff_dimensions` and performs no element comparison: `diff_pixels` stays
empty, `diff_total` stays 0 and `diff_ratio` stays 0. -/
theorem c7_shape_mismatch_short_circuit :
    ∀ (a b : NDArr) (n : Int) (t : ℚ), a.shape ≠ b.shape →
    (imageDataDiff a b n t).diff_dimensions = some (a.shape, b.shape)
    ∧ (imageDataDiff a b n t).diff_pixels = []
    ∧ (imageDataDiff a b n t).diff_total = 0
    ∧ (imageDataDiff a b n t).diff_ratio = 0 := by
  intro a b n t h
  simp [imageDataDiff, h]

/-- Witness for C7 on two arrays of different shapes. -/
theorem c7_witness :
    (⟨[2], false, [1, 2]⟩ : NDArr).shape ≠ (⟨[1, 2], false, [1, 2]⟩ : NDArr).shape
    ∧ (imageDataDiff ⟨[2], false, [1, 2]⟩ ⟨[1, 2], false, [1, 2]⟩ 10 0).diff_total = 0 :=
  ⟨by decide,
   (c7_shape_mismatch_short_circuit ⟨[2], false, [1, 2]⟩
     ⟨[1, 2], false, [1, 2]⟩ 10 0 (by decide)).2.2.1⟩

/-- C6: with `*` in the ignore-keyword set, `HeaderDiff` records no
keyword, value or comment differences regardless of header content, but
`diff_keyword_count`, computed before ignore filtering, is still set when
the two headers' total card counts differ. -/
theorem c6_ignore_all_keywords :
    ∀ (a b : Header) (ikw icm : List String) (t : ℚ) (ib : Bool),
    "*" ∈ ikw →
    (headerDiff a b ikw icm t ib).diff_keywords = none
    ∧ (headerDiff a b ikw icm t ib).diff_duplicate_keywords = []
    ∧ (headerDiff a b ikw icm t ib).diff_keyword_values = []
    ∧ (headerDiff a b ikw icm t ib).diff_keyword_comments = []
    ∧ (headerDiff a b ikw icm t ib).diff_keyword_count =
        (if a.length ≠ b.length then some (a.length, b.length) else none) := by
  intro a b ikw icm t ib h
  simp [headerDiff, h]

/-- Witness for C6 on two headers with different counts and different
values. -/
theorem c6_witness :
    "*" ∈ ["*"]
    ∧ (headerDiff [⟨"N", .vint 2, ""⟩] [⟨"N", .vint 3, ""⟩, ⟨"M", .vint 1, ""⟩]
        ["*"] [] 0 true).diff_keyword_values = []
    ∧ (headerDiff [⟨"N", .vint 2, ""⟩] [⟨"N", .vint 3, ""⟩, ⟨"M", .vint 1, ""⟩]
        ["*"] [] 0 true).diff_keyword_count =
        (if ([⟨"N", .vint 2, ""⟩] : Header).length =
            ([⟨"N", .vint 3, ""⟩, ⟨"M", .vint 1, ""⟩] : Header).length then none
         else some (1, 2)) :=
  ⟨by simp,
   (c6_ignore_all_keywords _ _ ["*"] [] 0 true (by simp)).2.2.1,
   by rfl⟩

/-- C10: diffing two zero-row tables (without a `*` ignore-field entry)
raises `ZeroDivisionError`, because `diff_ratio` is unconditionally
computed as `diff_total / (len(a) * len(a.dtype.fields))` at the end of
the comparison. -/
theorem c10_zero_rows_zero_division :
    ∀ (a b : Table) (flds : List String) (n : Int) (t : ℚ),
    a.nrows = 0 → "*" ∉ flds →
    tableDataDiff a b flds n t = .error "ZeroDivisionError" := by
  intro a b flds n t h0 hstar
  simp [tableDataDiff, hstar, h0]

/-- Witness for C10 on a concrete zero-row table. -/
theorem c10_witness :
    (⟨[⟨"A", "J", false, []⟩], 0⟩ : Table).nrows = 0
    ∧ "*" ∉ (["B"] : List String)
    ∧ tableDataDiff ⟨[⟨"A", "J", false, []⟩], 0⟩ ⟨[⟨"A", "J", false, []⟩], 0⟩
        ["B"] 10 0 = .error "ZeroDivisionError" :=
  ⟨rfl, by decide,
   c10_zero_rows_zero_division ⟨[⟨"A", "J", false, []⟩], 0⟩
     ⟨[⟨"A", "J", false, []⟩], 0⟩ ["B"] 10 0 rfl (by decide)⟩

/-- C2 (failing input): `HDUDiff._diff` does not forward the configured
`ignore_fields`/`numdiffs`/`tolerance` into the `TableDataDiff` it
constructs (diff.py 355 builds `TableDataDiff(self.a.data, self.b.data)`
with all-default options).  For two one-column table HDUs whose only
column FLUX differs, an `HDUDiff` configured with
`ignore_fields=['FLUX']` still finds one table data difference, whereas
`TableDataDiff` invoked with that same configuration finds none. -/
theorem c2_configuration_not_forwarded :
    ((hduDiff ⟨"T", [], some (.tbl ⟨[⟨"FLUX", "D", true, [[1]]⟩], 1⟩)⟩
              ⟨"T", [], some (.tbl ⟨[⟨"FLUX", "D", true, [[2]]⟩], 1⟩)⟩
              ⟨[], [], ["FLUX"], 10, 0, true⟩).map
        (fun r => match r.diff_data with
          | some (.tbl t) => some t.diff_total
          | _ => none) = .ok (some 1))
    ∧ ((tableDataDiff ⟨[⟨"FLUX", "D", true, [[1]]⟩], 1⟩
                      ⟨[⟨"FLUX", "D", true, [[2]]⟩], 1⟩ ["FLUX"] 10 0).map
        (fun r => r.diff_total) = .ok 0) :=
  ⟨by rfl, by rfl⟩

-- Filtering with a stronger predicate yields at most as many elements.
theorem length_filter_of_imp {α : Type} (l : List α) (p q : α → Bool)
    (h : ∀ x, p x = true → q x = true) :
    (l.filter p).length ≤ (l.filter q).length :=
  (List.monotone_filter_right l h).length_le

-- The divergence-locator output length is antitone in the relative
-- tolerance (with zero absolute tolerance).
theorem wna_length_anti (a b : List ℚ) (t1 t2 : ℚ) (h : t1 ≤ t2) :
    (where_not_allclose a b t2 0).length ≤
      (where_not_allclose a b t1 0).length := by
  unfold where_not_allclose
  by_cases h1 : t1 = 0 <;> by_cases h2 : t2 = 0
  · subst h1; subst h2; exact le_refl _
  · subst h1
    rw [if_neg (fun hc => h2 hc.2), if_pos ⟨rfl, rfl⟩]
    refine length_filter_of_imp _ _ _ (fun i hi => ?_)
    have ht2 : 0 < t2 := lt_of_le_of_ne h (Ne.symm h2)
    simp only [decide_eq_true_eq] at hi ⊢
    have hmul : 0 ≤ t2 * |b.getD i 0| :=
      mul_nonneg ht2.le (abs_nonneg _)
    have : 0 < |a.getD i 0 - b.getD i 0| := by linarith
    exact sub_ne_zero.mp (abs_pos.mp this)
  · subst h2
    rw [if_pos ⟨rfl, rfl⟩, if_neg (fun hc => h1 hc.2)]
    refine length_filter_of_imp _ _ _ (fun i hi => ?_)
    have ht1 : t1 < 0 := lt_of_le_of_ne h h1
    simp only [decide_eq_true_eq] at hi ⊢
    have habs : 0 < |a.getD i 0 - b.getD i 0| :=
      abs_pos.mpr (sub_ne_zero.mpr hi)
    have hmul : t1 * |b.getD i 0| ≤ 0 :=
      mul_nonpos_of_nonpos_of_nonneg ht1.le (abs_nonneg _)
    linarith
  · rw [if_neg (fun hc => h2 hc.2), if_neg (fun hc => h1 hc.2)]
    refine length_filter_of_imp _ _ _ (fun i hi => ?_)
    simp only [decide_eq_true_eq] at hi ⊢
    have hmul : t1 * |b.getD i 0| ≤ t2 * |b.getD i 0| :=
      mul_le_mul_of_nonneg_right h (abs_nonneg _)
    linarith

-- With equal shapes, `diff_total` is exactly the locator output length at
-- the effective (possibly zero-forced) tolerance.
theorem imageDataDiff_total_eq (a b : NDArr) (n : Int) (t : ℚ)
    (h : a.shape = b.shape) :
    (imageDataDiff a b n t).diff_total =
      (where_not_allclose a.data b.data
        (if !a.isFloat && !b.isFloat then 0 else t) 0).length := by
  rw [imageDataDiff, if_neg (by simp [h])]
  split <;> split <;> (simp only []; split <;> simp_all)

/-- C8 (counterexample): for two INTEGER arrays the configured tolerance is
forced to zero (diff.py 677-684), so a tolerance at least as large as the
maximum relative deviation does not give `diff_total = 0`: with a = [5],
b = [7] and tolerance 1 (which satisfies `|5-7| <= 1*|7|`) the diff still
reports one differing pixel. -/
theorem c8_counterexample :
    (imageDataDiff ⟨[1], false, [5]⟩ ⟨[1], false, [7]⟩ 10 1).diff_total = 1
    ∧ |(5 : ℚ) - 7| ≤ 1 * |(7 : ℚ)|
    ∧ (1 : Nat) ≠ 0 :=
  ⟨by rfl, by norm_num, by decide⟩

/-- C8 (amended): `diff_total` is antitone in the relative tolerance for
every pair of arrays; and for pairs where at least one side has a
floating-point dtype (so that the configured tolerance is not forced to
zero), any tolerance dominating the pointwise relative deviation
(`|a[i]-b[i]| <= t*|b[i]|` for all positions) yields `diff_total = 0`. -/
theorem c8_amended_tolerance_monotonicity :
    (∀ (a b : NDArr) (n : Int) (t1 t2 : ℚ), t1 ≤ t2 →
      (imageDataDiff a b n t2).diff_total ≤
        (imageDataDiff a b n t1).diff_total)
    ∧ (∀ (a b : NDArr) (n : Int) (t : ℚ),
      (a.isFloat = true ∨ b.isFloat = true) →
      (∀ i, i < a.data.length →
        |a.data.getD i 0 - b.data.getD i 0| ≤ t * |b.data.getD i 0|) →
      (imageDataDiff a b n t).diff_total = 0) := by
  constructor
  · intro a b n t1 t2 h
    by_cases hs : a.shape = b.shape
    · rw [imageDataDiff_total_eq a b n t2 hs, imageDataDiff_total_eq a b n t1 hs]
      by_cases hf : (!a.isFloat && !b.isFloat) = true
      · simp only [hf, if_true]
        exact le_refl _
      · simp only [hf, if_false]
        exact wna_length_anti a.data b.data t1 t2 h
    · simp [imageDataDiff, hs]
  · intro a b n t hf hb
    by_cases hs : a.shape = b.shape
    · rw [imageDataDiff_total_eq a b n t hs]
      have hff : (!a.isFloat && !b.isFloat) = false := by
        rcases hf with h | h <;> simp [h]
      rw [hff, if_neg (by simp), List.length_eq_zero]
      unfold where_not_allclose
      by_cases ht : t = 0
      · subst ht
        rw [if_pos ⟨rfl, rfl⟩]
        rw [List.filter_eq_nil_iff]
        intro i hi
        have hbd := hb i (List.mem_range.mp hi)
        simp only [zero_mul] at hbd
        have : a.data.getD i 0 = b.data.getD i 0 :=
          sub_eq_zero.mp (abs_nonpos_iff.mp hbd)
        simpa using this
      · rw [if_neg (fun hc => ht hc.2)]
        rw [List.filter_eq_nil_iff]
        intro i hi
        have hbd := hb i (List.mem_range.mp hi)
        simp only [decide_eq_true_eq, not_lt]
        linarith
    · simp [imageDataDiff, hs]

/-- Witness for the amended C8 at concrete float arrays. -/
theorem c8_witness :
    (0 : ℚ) ≤ 1
    ∧ (imageDataDiff ⟨[2], true, [5, 6]⟩ ⟨[2], true, [7, 6]⟩ 10 1).diff_total ≤
        (imageDataDiff ⟨[2], true, [5, 6]⟩ ⟨[2], true, [7, 6]⟩ 10 0).diff_total
    ∧ (imageDataDiff ⟨[1], true, [6]⟩ ⟨[1], true, [6]⟩ 10 0).diff_total = 0 :=
  ⟨by norm_num,
   c8_amended_tolerance_monotonicity.1 ⟨[2], true, [5, 6]⟩ ⟨[2], true, [7, 6]⟩
     10 0 1 (by norm_num),
   c8_amended_tolerance_monotonicity.2 ⟨[1], true, [6]⟩ ⟨[1], true, [6]⟩ 10 0
     (Or.inl rfl) (by intro i hi; simp)⟩

-- `identical` of an `HDUDiff` result carrying no data diff.
theorem hduIdentical_mk_none (den : Option (String × String))
    (dev det : Option (Option PyVal × Option PyVal)) (dh : HeaderDiffResult) :
    hduIdentical ⟨den, dev, det, dh, none⟩ = true ↔
      (den = none ∧ dev = none ∧ det = none ∧ headerIdentical dh = true) := by
  simp [hduIdentical, hduDiffAttrs, dataDiffTruthy]

/-- C9: when either side's data is `None`, `HDUDiff` leaves `diff_data` as
`None` and records the data-presence asymmetry in no `diff_*` field, so
such a pair is identical exactly when the names, EXTVER/XTENSION header
entries, and headers match. -/
theorem c9_missing_data_not_compared :
    ∀ (a b : HDU) (cfg : DiffConfig), a.data = none ∨ b.data = none →
    ∃ r, hduDiff a b cfg = .ok r ∧ r.diff_data = none
    ∧ (hduIdentical r = true ↔
        (a.name = b.name
        ∧ headerGet a.header "EXTVER" = headerGet b.header "EXTVER"
        ∧ headerGet a.header "XTENSION" = headerGet b.header "XTENSION"
        ∧ headerIdentical (headerDiff a.header b.header cfg.ignore_keywords
            cfg.ignore_comments cfg.tolerance cfg.ignore_blanks) = true)) := by
  intro a b cfg h
  obtain ⟨na, ha, da⟩ := a
  obtain ⟨nb, hb, db⟩ := b
  cases da <;> cases db
  · refine ⟨_, rfl, rfl, ?_⟩
    rw [hduIdentical_mk_none]
    simp [ite_eq_right_iff]
  · refine ⟨_, rfl, rfl, ?_⟩
    rw [hduIdentical_mk_none]
    simp [ite_eq_right_iff]
  · rename_i v
    cases v <;>
      (refine ⟨_, rfl, rfl, ?_⟩
       rw [hduIdentical_mk_none]
       simp [ite_eq_right_iff])
  · exact absurd h (by simp)

/-- Witness for C9 on a data-carrying HDU against a data-less one. -/
theorem c9_witness :
    ((⟨"X", [], none⟩ : HDU).data = none
      ∨ (⟨"X", [], some (.img ⟨[1], false, [5]⟩)⟩ : HDU).data = none)
    ∧ ∃ r, hduDiff ⟨"X", [], none⟩ ⟨"X", [], some (.img ⟨[1], false, [5]⟩)⟩
        ⟨[], [], [], 10, 0, true⟩ = .ok r ∧ r.diff_data = none
    ∧ (hduIdentical r = true ↔
        (("X" : String) = "X"
        ∧ headerGet [] "EXTVER" = headerGet [] "EXTVER"
        ∧ headerGet [] "XTENSION" = headerGet [] "XTENSION"
        ∧ headerIdentical (headerDiff [] [] [] [] 0 true) = true)) :=
  ⟨Or.inl rfl,
   c9_missing_data_not_compared ⟨"X", [], none⟩
     ⟨"X", [], some (.img ⟨[1], false, [5]⟩)⟩ ⟨[], [], [], 10, 0, true⟩
     (Or.inl rfl)⟩

-- `skipConsec` is the identity on duplicate-free lists (when the initial
-- last-seen marker does not occur in the list).
theorem skipConsec_eq_self (l : List Nat) (o : Option Nat)
    (ho : ∀ x ∈ l, some x ≠ o) (h : l.Nodup) : skipConsec o l = l := by
  induction l generalizing o with
  | nil => rfl
  | cons x xs ih =>
    rw [skipConsec, if_neg]
    · have hx : x ∉ xs := (List.nodup_cons.mp h).1
      rw [ih (some x) (fun y hy hc => hx (by
        have : y = x := by simpa using hc
        rwa [this] at hy)) (List.nodup_cons.mp h).2]
    · intro hc
      exact ho x (List.mem_cons_self x xs) ((by simpa using hc : o = some x).symm)

-- In particular the loop of diff.py 893-900 keeps every entry of a
-- duplicate-free index list.
theorem skipConsec_none_of_nodup (l : List Nat) (h : l.Nodup) :
    skipConsec none l = l :=
  skipConsec_eq_self l none (fun x _ => by simp) h

-- Row indices emitted with at most one repetition each are distinct and
-- bounded below by the enumeration start.
theorem nodup_enumFrom_flatMap_replicate {α : Type} (l : List α) (n : Nat)
    (f : Nat × α → Nat) (hf : ∀ x ∈ List.enumFrom n l, f x ≤ 1) :
    ((List.enumFrom n l).flatMap
        (fun x => List.replicate (f x) x.1)).Nodup
    ∧ ∀ i ∈ (List.enumFrom n l).flatMap
        (fun x => List.replicate (f x) x.1), n ≤ i := by
  induction l generalizing n with
  | nil => simp
  | cons a l ih =>
    have hstep : List.enumFrom n (a :: l) =
        (n, a) :: List.enumFrom (n + 1) l := rfl
    rw [hstep, List.flatMap_cons]
    obtain ⟨ihn, ihb⟩ := ih (n + 1)
      (fun x hx => hf x (by rw [hstep]; exact List.mem_cons_of_mem _ hx))
    rcases Nat.le_one_iff_eq_zero_or_eq_one.mp
      (hf (n, a) (by rw [hstep]; exact List.mem_cons_self _ _)) with h0 | h1
    · rw [h0]
      simp only [List.replicate_zero, List.nil_append]
      exact ⟨ihn, fun i hi => Nat.le_of_succ_le (ihb i hi)⟩
    · rw [h1]
      simp only [List.replicate_one, List.singleton_append]
      constructor
      · rw [List.nodup_cons]
        exact ⟨fun hn => by
          have := ihb n hn
          omega, ihn⟩
      · intro i hi
        rcases List.mem_cons.mp hi with rfl | hi
        · exact le_refl i
        · exact Nat.le_of_succ_le (ihb i hi)

-- Same statement for the filterMap used by the variable-length column
-- branch.
theorem nodup_enumFrom_filterMap {α : Type} (l : List α) (n : Nat)
    (p : Nat × α → Bool) :
    ((List.enumFrom n l).filterMap
        (fun x => if p x then some x.1 else none)).Nodup
    ∧ ∀ i ∈ (List.enumFrom n l).filterMap
        (fun x => if p x then some x.1 else none), n ≤ i := by
  induction l generalizing n with
  | nil => simp
  | cons a l ih =>
    have hstep : List.enumFrom n (a :: l) =
        (n, a) :: List.enumFrom (n + 1) l := rfl
    rw [hstep]
    obtain ⟨ihn, ihb⟩ := ih (n + 1)
    by_cases hp : p (n, a) = true
    · have hlist : List.filterMap
          (fun (x : Nat × α) => if p x then some x.1 else none)
          ((n, a) :: List.enumFrom (n + 1) l)
          = n :: List.filterMap (fun x => if p x then some x.1 else none)
              (List.enumFrom (n + 1) l) := by
        simp [hp]
      rw [hlist]
      constructor
      · rw [List.nodup_cons]
        exact ⟨fun hn => by have := ihb n hn; omega, ihn⟩
      · intro i hi
        rcases List.mem_cons.mp hi with rfl | hi
        · exact le_refl i
        · exact Nat.le_of_succ_le (ihb i hi)
    · have hlist : List.filterMap
          (fun (x : Nat × α) => if p x then some x.1 else none)
          ((n, a) :: List.enumFrom (n + 1) l)
          = List.filterMap (fun x => if p x then some x.1 else none)
              (List.enumFrom (n + 1) l) := by
        simp [hp]
      rw [hlist]
      exact ⟨ihn, fun i hi => Nat.le_of_succ_le (ihb i hi)⟩

-- Generalized distinctness for the variable-length branch: any filterMap
-- that only ever emits the enumeration index yields distinct indices.
theorem nodup_enumFrom_filterMap_idx {α : Type} (l : List α) (n : Nat)
    (g : Nat × α → Option Nat) (hg : ∀ x b, g x = some b → b = x.1) :
    ((List.enumFrom n l).filterMap g).Nodup
    ∧ ∀ i ∈ (List.enumFrom n l).filterMap g, n ≤ i := by
  induction l generalizing n with
  | nil => simp
  | cons a l ih =>
    have hstep : List.enumFrom n (a :: l) =
        (n, a) :: List.enumFrom (n + 1) l := rfl
    rw [hstep]
    obtain ⟨ihn, ihb⟩ := ih (n + 1)
    cases hga : g (n, a) with
    | none =>
      rw [List.filterMap_cons_none hga]
      exact ⟨ihn, fun i hi => Nat.le_of_succ_le (ihb i hi)⟩
    | some bb =>
      have hbb : bb = n := hg (n, a) bb hga
      subst hbb
      rw [List.filterMap_cons_some hga]
      constructor
      · rw [List.nodup_cons]
        exact ⟨fun hn => by have := ihb bb hn; omega, ihn⟩
      · intro i hi
        rcases List.mem_cons.mp hi with rfl | hi
        · exact le_refl i
        · exact Nat.le_of_succ_le (ihb i hi)

-- With single-valued cells on the left table, the row-repetition list has
-- no duplicates.
theorem rowRepeatIdxs_nodup (p : ℚ → ℚ → Bool) (ca cb : List (List ℚ))
    (h : ∀ cell ∈ ca, cell.length ≤ 1) : (rowRepeatIdxs p ca cb).Nodup := by
  unfold rowRepeatIdxs
  refine (nodup_enumFrom_flatMap_replicate (List.zip ca cb) 0 _ ?_).1
  intro x hx
  obtain ⟨i, u, v⟩ := x
  have hx2 : (u, v) ∈ List.zip ca cb := List.snd_mem_of_mem_enumFrom hx
  have h1 : u ∈ ca := (List.of_mem_zip hx2).1
  calc ((List.zip u v).filter (fun q => p q.1 q.2)).length
      ≤ (List.zip u v).length := List.length_filter_le _ _
    _ ≤ u.length := by rw [List.length_zip]; exact min_le_left _ _
    _ ≤ 1 := h u h1

-- The per-column difference index list is duplicate-free whenever the
-- left column has single-valued cells.
theorem colDiffIdxs_nodup (t : ℚ) (col ca cb : TCol)
    (hca : ∀ cell ∈ ca.cells, cell.length ≤ 1) :
    (colDiffIdxs t col ca cb).Nodup := by
  unfold colDiffIdxs
  split_ifs with h1 h2 h3
  · exact rowRepeatIdxs_nodup _ _ _ hca
  · exact rowRepeatIdxs_nodup _ _ _ hca
  · refine (nodup_enumFrom_filterMap_idx (List.zip ca.cells cb.cells) 0 _ ?_).1
    intro x bb hx
    by_cases hc : allcloseCells t x.2.1 x.2.2
    · rw [if_pos hc] at hx; cases hx
    · rw [if_neg hc] at hx; exact (Option.some_inj.mp hx).symm
  · exact rowRepeatIdxs_nodup _ _ _ hca

-- Looked-up columns of a scalar-cell table have single-valued cells.
theorem colByName_cells_le_one (a : Table) (ha : scalarCells a = true)
    (nm : String) : ∀ cell ∈ (a.colByName nm).cells, cell.length ≤ 1 := by
  have hmem : ∀ c ∈ a.cols, ∀ cell ∈ c.cells, cell.length ≤ 1 := by
    intro c hc cell hcell
    rw [scalarCells] at ha
    have h1 := List.all_eq_true.mp ha c hc
    have h2 := List.all_eq_true.mp h1 cell hcell
    simpa using h2
  intro cell
  unfold Table.colByName
  cases hf : a.cols.find? (fun c => c.name == nm) with
  | some c =>
    intro hcell
    exact hmem c (List.mem_of_find?_eq_some hf) cell hcell
  | none =>
    cases hf2 : a.cols.find? (fun c => strLower c.name == strLower nm) with
    | some c =>
      intro hcell
      exact hmem c (List.mem_of_find?_eq_some hf2) cell hcell
    | none =>
      intro hcell
      simp at hcell

-- Each column step adds its distinct-row count to the running total,
-- regardless of the sampling branch taken.
theorem tableColStep_total (n : Int) (acc : TAcc)
    (c : TCol × TCol × TCol × List Nat) :
    (tableColStep n acc c).total = acc.total + c.2.2.2.dedup.length := by
  unfold tableColStep
  split <;> rfl

-- The running total after the column loop is the initial total plus the
-- sum of the per-column distinct-row counts.
theorem tableFold_total (n : Int) (w : List (TCol × TCol × TCol × List Nat))
    (acc : TAcc) :
    (w.foldl (tableColStep n) acc).total =
      acc.total + (w.map (fun c => c.2.2.2.dedup.length)).sum := by
  induction w generalizing acc with
  | nil => simp
  | cons c w ih =>
    rw [List.foldl_cons, ih, tableColStep_total, List.map_cons, List.sum_cons]
    omega

-- One column step preserves the cap invariant
-- `collected = min cap total` when the column's index list is
-- duplicate-free and the cap is non-negative.
theorem tableColStep_len (n : Int) (hn : 0 ≤ n) (acc : TAcc)
    (c : TCol × TCol × TCol × List Nat) (hc : c.2.2.2.Nodup)
    (hacc : acc.vals.length = min n.toNat acc.total) :
    (tableColStep n acc c).vals.length =
      min n.toNat (tableColStep n acc c).total := by
  unfold tableColStep
  by_cases hb : 0 ≤ n ∧ n.toNat ≤ acc.vals.length
  · rw [if_pos hb]
    have h2 := hb.2
    simp only []
    omega
  · rw [if_neg hb]
    have hlt : acc.vals.length < n.toNat := by
      rcases not_and_or.mp hb with h | h
      · exact absurd hn h
      · omega
    have hnneg : ¬ n < 0 := not_lt.mpr hn
    simp only [if_neg hnneg]
    rw [skipConsec_none_of_nodup _ (hc.sublist (List.take_sublist _ _))]
    simp only [List.length_append, List.length_map, List.length_take,
      List.dedup_eq_self.mpr hc]
    omega

-- One column step preserves `collected = total` when the cap is negative
-- (unbounded sampling).
theorem tableColStep_len_neg (n : Int) (hn : n < 0) (acc : TAcc)
    (c : TCol × TCol × TCol × List Nat) (hc : c.2.2.2.Nodup)
    (hacc : acc.vals.length = acc.total) :
    (tableColStep n acc c).vals.length = (tableColStep n acc c).total := by
  unfold tableColStep
  rw [if_neg (fun hb => absurd hn (not_lt.mpr hb.1))]
  simp only [if_pos hn, List.take_length]
  rw [skipConsec_none_of_nodup _ hc]
  simp only [List.length_append, List.length_map,
    List.dedup_eq_self.mpr hc]
  omega

-- Cap invariant over the whole column loop (non-negative cap).
theorem tableFold_len (n : Int) (hn : 0 ≤ n)
    (w : List (TCol × TCol × TCol × List Nat))
    (hw : ∀ c ∈ w, c.2.2.2.Nodup) (acc : TAcc)
    (hacc : acc.vals.length = min n.toNat acc.total) :
    (w.foldl (tableColStep n) acc).vals.length =
      min n.toNat (w.foldl (tableColStep n) acc).total := by
  induction w generalizing acc with
  | nil => exact hacc
  | cons c w ih =>
    rw [List.foldl_cons]
    exact ih (fun x hx => hw x (List.mem_cons_of_mem _ hx))
      (tableColStep n acc c)
      (tableColStep_len n hn acc c (hw c (List.mem_cons_self _ _)) hacc)

-- Unbounded sampling collects one sample per counted difference.
theorem tableFold_len_neg (n : Int) (hn : n < 0)
    (w : List (TCol × TCol × TCol × List Nat))
    (hw : ∀ c ∈ w, c.2.2.2.Nodup) (acc : TAcc)
    (hacc : acc.vals.length = acc.total) :
    (w.foldl (tableColStep n) acc).vals.length =
      (w.foldl (tableColStep n) acc).total := by
  induction w generalizing acc with
  | nil => exact hacc
  | cons c w ih =>
    rw [List.foldl_cons]
    exact ih (fun x hx => hw x (List.mem_cons_of_mem _ hx))
      (tableColStep n acc c)
      (tableColStep_len_neg n hn acc c (hw c (List.mem_cons_self _ _)) hacc)

-- Every work item of the column loop carries a duplicate-free index list
-- when the left table has single-valued cells.
theorem tableWork_nodup (a b : Table) (t : ℚ)
    (ha : scalarCells a = true) (ignore_fields : List String)
    (common : List TCol) :
    ∀ c ∈ common.filterMap (fun col =>
      if ignore_fields.contains (strLower col.name) then none
      else some (col, a.colByName col.name, b.colByName col.name,
        colDiffIdxs t col (a.colByName col.name) (b.colByName col.name))),
      c.2.2.2.Nodup := by
  intro c hc
  rw [List.mem_filterMap] at hc
  obtain ⟨col, _, hfc⟩ := hc
  by_cases hig : ignore_fields.contains (strLower col.name) = true
  · rw [if_pos hig] at hfc
    cases hfc
  · rw [if_neg hig] at hfc
    obtain rfl := Option.some_inj.mp hfc
    exact colDiffIdxs_nodup t col _ _ (colByName_cells_le_one a ha col.name)

-- The sampled-value count of a table diff is `min cap total` for a
-- non-negative cap and exactly `total` for a negative cap, provided the
-- left table has single-valued cells.
theorem tableDataDiff_counts (a b : Table) (flds : List String) (n : Int)
    (t : ℚ) (ha : scalarCells a = true) :
    (0 ≤ n → (tableDataDiff a b flds n t).map (fun r => r.diff_values.length)
      = (tableDataDiff a b flds n t).map (fun r => min n.toNat r.diff_total))
    ∧ (n < 0 → (tableDataDiff a b flds n t).map (fun r => r.diff_values.length)
      = (tableDataDiff a b flds n t).map (fun r => r.diff_total)) := by
  unfold tableDataDiff
  by_cases hstar : flds.contains "*" = true
  · rw [if_pos hstar]
    constructor <;> intro hn <;> simp [Except.map]
  · rw [if_neg hstar]
    simp only []
    split
    · constructor <;> intro hn <;> rfl
    · constructor <;> intro hn <;>
        simp only [Except.map] <;> refine congrArg Except.ok ?_
      · exact tableFold_len n hn _
          (tableWork_nodup a b t ha _ _) ⟨[], 0⟩ (by simp)
      · exact tableFold_len_neg n hn _
          (tableWork_nodup a b t ha _ _) ⟨[], 0⟩ (by simp)

-- `diff_total` of a table diff does not depend on the cap.
theorem tableDataDiff_total_indep (a b : Table) (flds : List String)
    (t : ℚ) (n m : Int) :
    (tableDataDiff a b flds n t).map (fun r => r.diff_total)
      = (tableDataDiff a b flds m t).map (fun r => r.diff_total) := by
  unfold tableDataDiff
  by_cases hstar : flds.contains "*" = true
  · rw [if_pos hstar, if_pos hstar]
  · rw [if_neg hstar, if_neg hstar]
    simp only []
    by_cases htv : a.nrows * a.cols.length = 0
    · rw [if_pos htv, if_pos htv]
    · rw [if_neg htv, if_neg htv]
      simp only [Except.map]
      refine congrArg Except.ok ?_
      rw [tableFold_total, tableFold_total]

-- Image sample counts: `min cap total` for a non-negative cap, `total`
-- for a negative cap.
theorem imageDataDiff_pixels_len (a b : NDArr) (n : Int) (t : ℚ) :
    (0 ≤ n → (imageDataDiff a b n t).diff_pixels.length
      = min n.toNat (imageDataDiff a b n t).diff_total)
    ∧ (n < 0 → (imageDataDiff a b n t).diff_pixels.length
      = (imageDataDiff a b n t).diff_total) := by
  unfold imageDataDiff
  split
  · constructor <;> intro hn <;> simp
  · simp only []
    generalize where_not_allclose a.data b.data _ 0 = D
    split
    · constructor <;> intro hn <;> simp
    · constructor <;> intro hn
      · simp [List.length_map, List.length_take, not_lt.mpr hn]
      · simp [List.length_map, List.length_take, hn]

/-- C3 (counterexample): for tables with multi-valued cells the sampled
count can fall below `min(numdiffs, diff_total)`: with one common column
of two-element cells differing in both rows, cap 2 collects only one
sample (the repeated row index of row 0 consumes the cap budget before
being skipped), although `diff_total = 2` and `min 2 2 = 2`. -/
theorem c3_counterexample :
    (tableDataDiff ⟨[⟨"A", "2J", false, [[1, 2], [3, 4]]⟩], 2⟩
                   ⟨[⟨"A", "2J", false, [[5, 6], [7, 8]]⟩], 2⟩ [] 2 0).map
      (fun r => (r.diff_values.length, r.diff_total)) = .ok (1, 2)
    ∧ (1 : Nat) ≠ min 2 2 :=
  ⟨by rfl, by decide⟩

/-- C3 (amended): for `ImageDataDiff` the sampled pixel count is
`min(numdiffs, diff_total)` for `numdiffs >= 0` and `diff_total` for a
negative (unbounded) `numdiffs`, and `diff_total` is exact regardless of
`numdiffs`.  For `TableDataDiff` the same holds PROVIDED every cell of the
first table is single-valued (no multi-dimensional/variable-length cells);
with multi-valued cells the skipped duplicate row indices consume cap
budget, so the sampled count can be smaller.  `diff_total` of a table diff
is exact regardless of `numdiffs` in all cases. -/
theorem c3_amended_cap_invariant :
    (∀ (a b : NDArr) (n : Int) (t : ℚ), 0 ≤ n →
      (imageDataDiff a b n t).diff_pixels.length =
        min n.toNat (imageDataDiff a b n t).diff_total)
    ∧ (∀ (a b : NDArr) (n : Int) (t : ℚ), n < 0 →
      (imageDataDiff a b n t).diff_pixels.length =
        (imageDataDiff a b n t).diff_total)
    ∧ (∀ (a b : NDArr) (n m : Int) (t : ℚ),
      (imageDataDiff a b n t).diff_total = (imageDataDiff a b m t).diff_total)
    ∧ (∀ (a b : Table) (flds : List String) (n : Int) (t : ℚ),
      scalarCells a = true → 0 ≤ n →
      (tableDataDiff a b flds n t).map (fun r => r.diff_values.length)
        = (tableDataDiff a b flds n t).map (fun r => min n.toNat r.diff_total))
    ∧ (∀ (a b : Table) (flds : List String) (n : Int) (t : ℚ),
      scalarCells a = true → n < 0 →
      (tableDataDiff a b flds n t).map (fun r => r.diff_values.length)
        = (tableDataDiff a b flds n t).map (fun r => r.diff_total))
    ∧ (∀ (a b : Table) (flds : List String) (n m : Int) (t : ℚ),
      (tableDataDiff a b flds n t).map (fun r => r.diff_total)
        = (tableDataDiff a b flds m t).map (fun r => r.diff_total)) :=
  ⟨fun a b n t hn => (imageDataDiff_pixels_len a b n t).1 hn,
   fun a b n t hn => (imageDataDiff_pixels_len a b n t).2 hn,
   fun a b n m t => by
     by_cases hs : a.shape = b.shape
     · rw [imageDataDiff_total_eq a b n t hs, imageDataDiff_total_eq a b m t hs]
     · simp [imageDataDiff, hs],
   fun a b flds n t ha hn => (tableDataDiff_counts a b flds n t ha).1 hn,
   fun a b flds n t ha hn => (tableDataDiff_counts a b flds n t ha).2 hn,
   fun a b flds n m t => tableDataDiff_total_indep a b flds t n m⟩

/-- Witness for the amended C3 at concrete image and scalar-cell table
inputs. -/
theorem c3_witness :
    (0 : Int) ≤ 3
    ∧ (imageDataDiff ⟨[1], false, [5]⟩ ⟨[1], false, [7]⟩ 3 0).diff_pixels.length
        = min (Int.toNat 3)
            (imageDataDiff ⟨[1], false, [5]⟩ ⟨[1], false, [7]⟩ 3 0).diff_total
    ∧ scalarCells ⟨[⟨"A", "J", false, [[1], [3]]⟩], 2⟩ = true
    ∧ (tableDataDiff ⟨[⟨"A", "J", false, [[1], [3]]⟩], 2⟩
          ⟨[⟨"A", "J", false, [[2], [3]]⟩], 2⟩ [] 3 0).map
        (fun r => r.diff_values.length)
      = (tableDataDiff ⟨[⟨"A", "J", false, [[1], [3]]⟩], 2⟩
          ⟨[⟨"A", "J", false, [[2], [3]]⟩], 2⟩ [] 3 0).map
        (fun r => min (Int.toNat 3) r.diff_total) :=
  ⟨by decide,
   c3_amended_cap_invariant.1 ⟨[1], false, [5]⟩ ⟨[1], false, [7]⟩ 3 0 (by decide),
   by rfl,
   c3_amended_cap_invariant.2.2.2.1 ⟨[⟨"A", "J", false, [[1], [3]]⟩], 2⟩
     ⟨[⟨"A", "J", false, [[2], [3]]⟩], 2⟩ [] 3 0 (by rfl) (by decide)⟩
